import Mathlib

/-!
Verification of the `pycomar.images.colorspace` module.

The module operates on torch tensors of shape `(*, 3, H, W)`.  We embed it at
two complementary levels.

* Shape level: every conversion function is modelled as a map from the input
  tensor shape (a `List ℕ`, outermost dimension first) to `Except TErr (List ℕ)`,
  reproducing the module's control flow: the explicit shape validation
  (`len(shape) < 3 or shape[-3] != 3` raising `ValueError`), torch indexing
  `image[..., i, :, :]` (raising `IndexError` when the rank is too small or the
  index is out of range), `torch.stack(..., dim=-3)`, channel slicing
  `[..., 1:, :, :]` and `torch.cat(..., dim=0)`.

* Value level: a tensor of shape `(*, 3, H, W)` is a family of 3-channel
  pixels indexed by an arbitrary index type `ι` (one index per batch/height/width
  coordinate); each conversion acts pixelwise.  Float arithmetic is idealised as
  exact arithmetic: the HSV and YUV conversions are rational and are modelled
  over `ℚ`; the Lab chain uses real powers and is modelled over `ℝ`.
  The Python constant `math.pi` is a float with exact value
  `884279719003555 / 2^48`; the HSV code multiplies and divides by that exact
  rational, which keeps the HSV model computable.
-/

namespace Pycomar

/-- Errors raised by the torch operations used in `colorspace.py`:
`shapeMismatch` is the module's own `ValueError` for an input whose rank is
below 3 or whose channel dimension is not 3; `indexErr` is torch's
`IndexError` from `image[..., i, :, :]`; `catErr` is torch's `RuntimeError`
from `torch.cat` on incompatible shapes. -/
inductive TErr where
  | shapeMismatch : TErr
  | indexErr : TErr
  | catErr : TErr
deriving DecidableEq

/-- The validation performed by every conversion function except `rgb2yuv` and
`yuv2rgb`: `if len(image.shape) < 3 or image.shape[-3] != 3: raise ValueError`. -/
def validateShape (s : List ℕ) : Except TErr Unit :=
  if s.length < 3 ∨ s.getD (s.length - 3) 0 ≠ 3 then .error .shapeMismatch else .ok ()

/-- Shape behaviour of `image[..., i, :, :]`: torch raises `IndexError` when the
rank is below 3 or when `i` is out of range in dimension `-3`; otherwise the
dimension is removed. -/
def selectChannel (s : List ℕ) (i : ℕ) : Except TErr (List ℕ) :=
  if s.length < 3 then .error .indexErr
  else if i < s.getD (s.length - 3) 0 then .ok (s.eraseIdx (s.length - 3))
  else .error .indexErr

/-- Shape of `torch.stack([t, ...], dim=-3)` applied to `k` tensors of common
shape `u`: a new dimension of size `k` is inserted at position `-3` of the
result, i.e. before the last two dimensions of `u`. -/
def stackChannels (k : ℕ) (u : List ℕ) : List ℕ := u.insertIdx (u.length - 2) k

/-- Shape of the slice `[..., 1:, :, :]`: dimension `-3` shrinks by one. -/
def sliceChannelTail (s : List ℕ) : List ℕ :=
  s.set (s.length - 3) (s.getD (s.length - 3) 0 - 1)

/-- Shape of `torch.cat([a, b], dim=0)`: both tensors must have the same rank
and agree on every dimension except the first, which is summed. -/
def catDim0 (a b : List ℕ) : Except TErr (List ℕ) :=
  match a, b with
  | a0 :: atl, b0 :: btl => if atl = btl then .ok ((a0 + b0) :: atl) else .error .catErr
  | _, _ => .error .catErr

/-- Shape behaviour of `rgb2hsv`: validation, reductions `max(-3)`/`min(-3)`,
channel arithmetic and a final `torch.stack((h, s, v), dim=-3)`. -/
def rgb2hsv_shape (s : List ℕ) : Except TErr (List ℕ) := do
  let _ ← validateShape s
  pure (stackChannels 3 (s.eraseIdx (s.length - 3)))

/-- Shape behaviour of `hsv2rgb`: validation, channel selection
`image[..., i, :, :]`, a stack of the sector table and a rank-preserving
`torch.gather` along dimension `-3`. -/
def hsv2rgb_shape (s : List ℕ) : Except TErr (List ℕ) := do
  let _ ← validateShape s
  let u ← selectChannel s 0
  let _ ← selectChannel s 1
  let _ ← selectChannel s 2
  pure (stackChannels 3 u)

/-- Shape behaviour of `linear_rgb_to_rgb`: validation, then elementwise ops. -/
def linear_rgb_to_rgb_shape (s : List ℕ) : Except TErr (List ℕ) := do
  let _ ← validateShape s
  pure s

/-- Shape behaviour of `rgb_to_linear_rgb`: validation, then elementwise ops. -/
def rgb_to_linear_rgb_shape (s : List ℕ) : Except TErr (List ℕ) := do
  let _ ← validateShape s
  pure s

/-- Shape behaviour of `xyz_to_rgb`: validation, three channel selections and a
final `torch.stack([r, g, b], dim=-3)`. -/
def xyz_to_rgb_shape (s : List ℕ) : Except TErr (List ℕ) := do
  let _ ← validateShape s
  let u ← selectChannel s 0
  let _ ← selectChannel s 1
  let _ ← selectChannel s 2
  pure (stackChannels 3 u)

/-- Shape behaviour of `rgb_to_xyz`: validation, three channel selections and a
final `torch.stack([x, y, z], -3)`. -/
def rgb_to_xyz_shape (s : List ℕ) : Except TErr (List ℕ) := do
  let _ ← validateShape s
  let u ← selectChannel s 0
  let _ ← selectChannel s 1
  let _ ← selectChannel s 2
  pure (stackChannels 3 u)

/-- Shape behaviour of `rgb2yuv`.  Note: the source performs NO validation
here; it goes straight to `image[..., i, :, :]`.  The unused `clip` keyword
argument of the source is kept. -/
def rgb2yuv_shape (s : List ℕ) (clip : Bool) : Except TErr (List ℕ) := do
  let u ← selectChannel s 0
  let _ ← selectChannel s 1
  let _ ← selectChannel s 2
  pure (stackChannels 3 u)

/-- Shape behaviour of `yuv2rgb`.  Note: the source performs NO validation
here either; `torch.clamp` is shape preserving. -/
def yuv2rgb_shape (s : List ℕ) (clip : Bool) : Except TErr (List ℕ) := do
  let u ← selectChannel s 0
  let _ ← selectChannel s 1
  let _ ← selectChannel s 2
  let out := stackChannels 3 u
  pure (if clip then out else out)

/-- Shape behaviour of `rgb2lab`: validation, then `rgb_to_linear_rgb`,
`rgb_to_xyz`, a broadcast division by the `(3,1,1)` white point, elementwise
ops, three channel selections and a final stack. -/
def rgb2lab_shape (s : List ℕ) : Except TErr (List ℕ) := do
  let _ ← validateShape s
  let l ← rgb_to_linear_rgb_shape s
  let x ← rgb_to_xyz_shape l
  let u ← selectChannel x 0
  let _ ← selectChannel x 1
  let _ ← selectChannel x 2
  pure (stackChannels 3 u)

/-- Shape behaviour of `lab2rgb`: validation, three channel selections,
a stack into `fxyz`, a broadcast multiplication by the white point,
`xyz_to_rgb`, `linear_rgb_to_rgb` and an optional shape-preserving clamp. -/
def lab2rgb_shape (s : List ℕ) (clip : Bool) : Except TErr (List ℕ) := do
  let _ ← validateShape s
  let u ← selectChannel s 0
  let _ ← selectChannel s 1
  let _ ← selectChannel s 2
  let fxyz := stackChannels 3 u
  let x ← xyz_to_rgb_shape fxyz
  let out ← linear_rgb_to_rgb_shape x
  pure (if clip then out else out)

/-- Shape behaviour of `fuse_luma_chroma`: `img_gray *= 100` is elementwise,
`rgb2lab(img_rgb)[..., 1:, :, :]` slices the chroma channels, and the fusion is
`torch.cat([img_gray, ab], dim=0)` — dimension 0, not the channel dimension —
followed by `lab2rgb` (with its default `clip=True`). -/
def fuse_luma_chroma_shape (sg srgb : List ℕ) : Except TErr (List ℕ) := do
  let lab ← rgb2lab_shape srgb
  let ab := sliceChannelTail lab
  let fused ← catDim0 sg ab
  lab2rgb_shape fused true

/-! ### Value level, rational part (HSV and YUV) -/

/-- The exact value of the Python float `math.pi` (IEEE-754 double):
`884279719003555 / 2^48`.  The HSV conversions multiply and divide by
`2 * math.pi`. -/
def mathpi : ℚ := 884279719003555 / 281474976710656

/-- A pixel: the three channel values at one `(batch, h, w)` coordinate. -/
abbrev Pixel := ℚ × ℚ × ℚ

/-- `torch.remainder` (the `%` operator on float tensors): `x - y * ⌊x / y⌋`,
with the sign of the divisor. -/
def tmod (x y : ℚ) : ℚ := x - y * ⌊x / y⌋

/-- `torch.clamp(x, min=0.0, max=1.0)` on one value. -/
def clamp01q (x : ℚ) : ℚ := min (max x 0) 1

/-- The first index attaining the channelwise maximum, as returned by
`image.max(-3)` (ties resolved to the first occurrence). -/
def argmaxc (r g b : ℚ) : ℕ :=
  let m := max r (max g b)
  if r = m then 0 else if g = m then 1 else 2

/-- One pixel of `rgb2hsv(image, eps)`:
channelwise max/min, `deltac = max - min`, `v = max`,
`s = deltac / (max + eps)`, achromatic `deltac` replaced by 1, a three-way
piecewise hue selected by the argmax, `h = ((h/6) % 1)` and a final scaling
by `2 * math.pi`. -/
def rgb2hsv_pixel (p : Pixel) (eps : ℚ) : Pixel :=
  let r := p.1; let g := p.2.1; let b := p.2.2
  let maxc := max r (max g b)
  let minc := min r (min g b)
  let deltac := maxc - minc
  let v := maxc
  let s := deltac / (maxc + eps)
  let dc := if deltac = 0 then 1 else deltac
  let rc := maxc - r; let gc := maxc - g; let bc := maxc - b
  let h1 := bc - gc
  let h2 := (rc - bc) + 2 * dc
  let h3 := (gc - rc) + 4 * dc
  let hsel := match argmaxc r g b with
    | 0 => h1 / dc
    | 1 => h2 / dc
    | _ => h3 / dc
  let h := tmod (hsel / 6) 1
  (2 * mathpi * h, s, v)

/-- The 18-entry sector lookup table of `hsv2rgb`, already decomposed per
output channel: `out[c] = table[hi + 6 c]` with
`table = (v,q,p,p,t,v, t,v,v,q,p,p, p,p,t,v,v,q)`. -/
def sector (hi : ℤ) (v q p t : ℚ) : Pixel :=
  if hi = 0 then (v, t, p)
  else if hi = 1 then (q, v, p)
  else if hi = 2 then (p, v, t)
  else if hi = 3 then (p, q, v)
  else if hi = 4 then (t, p, v)
  else (v, p, q)

/-- One pixel of `hsv2rgb(image)`: `h = image[0] / (2π)`,
`hi = floor(h*6) % 6` (then cast to integer by `.long()`),
`f = ((h*6) % 6) - hi`, the candidate values `p, q, t` and the table gather. -/
def hsv2rgb_pixel (px : Pixel) : Pixel :=
  let h := px.1 / (2 * mathpi)
  let s := px.2.1
  let v := px.2.2
  let hf := tmod ((⌊h * 6⌋ : ℚ)) 6
  let f := tmod (h * 6) 6 - hf
  let p := v * (1 - s)
  let q := v * (1 - f * s)
  let t := v * (1 - (1 - f) * s)
  sector ⌊hf⌋ v q p t

/-- One pixel of `rgb2yuv(image, clip)`; the BT.601-style matrix from the
source.  The `clip` parameter of the source is never read. -/
def rgb2yuv_pixel (p : Pixel) (clip : Bool) : Pixel :=
  let r := p.1; let g := p.2.1; let b := p.2.2
  (0.299 * r + 0.587 * g + 0.114 * b,
   -0.14713 * r - 0.28886 * g + 0.436 * b,
   0.615 * r - 0.51499 * g - 0.10001 * b)

/-- One pixel of `yuv2rgb(image, clip)`: the inverse matrix from the source,
then `torch.clamp(out, 0, 1)` when `clip` is set. -/
def yuv2rgb_pixel (p : Pixel) (clip : Bool) : Pixel :=
  let y := p.1; let u := p.2.1; let v := p.2.2
  let r := y + 0 * u + 1.13983 * v
  let g := y - 0.39465 * u - 0.58060 * v
  let b := y + 2.03211 * u + 0 * v
  if clip then (clamp01q r, clamp01q g, clamp01q b) else (r, g, b)

/-- `rgb2hsv` on a whole image (a family of pixels), default `eps = 1e-8`. -/
def rgb2hsv {ι : Type} (img : ι → Pixel) (eps : ℚ := 1e-8) : ι → Pixel :=
  fun i => rgb2hsv_pixel (img i) eps

/-- `hsv2rgb` on a whole image. -/
def hsv2rgb {ι : Type} (img : ι → Pixel) : ι → Pixel :=
  fun i => hsv2rgb_pixel (img i)

/-- `rgb2yuv` on a whole image, default `clip=True` as in the source. -/
def rgb2yuv {ι : Type} (img : ι → Pixel) (clip : Bool := true) : ι → Pixel :=
  fun i => rgb2yuv_pixel (img i) clip

/-- `yuv2rgb` on a whole image, default `clip=True` as in the source. -/
def yuv2rgb {ι : Type} (img : ι → Pixel) (clip : Bool := true) : ι → Pixel :=
  fun i => yuv2rgb_pixel (img i) clip

/-! ### Value level, real part (the Lab chain)

The sRGB gamma curves and the Lab nonlinearity use real powers
(`torch.pow` with exponents `2.4`, `1/2.4`, `1/3.0` and `3.0`), so this part of
the model lives in `ℝ`; the float exponents are idealised as the real numbers
`2.4`, `1/2.4`, `1/3` and the real cube. -/

/-- A real-valued pixel, for the Lab chain. -/
abbrev RPixel := ℝ × ℝ × ℝ

/-- One value of `rgb_to_linear_rgb`:
`torch.where(image > 0.04045, ((image + 0.055) / 1.055) ** 2.4, image / 12.92)`. -/
noncomputable def rgb_to_linear_rgb_val (x : ℝ) : ℝ :=
  if x > 0.04045 then ((x + 0.055) / 1.055) ^ (2.4 : ℝ) else x / 12.92

/-- One value of `linear_rgb_to_rgb`: threshold `0.0031308`, the base clamped
at the threshold floor before exponentiation
(`image.clamp(min=threshold) ** (1/2.4)`), else `12.92 * image`. -/
noncomputable def linear_rgb_to_rgb_val (x : ℝ) : ℝ :=
  if x > 0.0031308 then 1.055 * (max x 0.0031308) ^ ((1 : ℝ) / 2.4) - 0.055
  else 12.92 * x

/-- One pixel of `rgb_to_xyz`: the fixed matrix of the source. -/
noncomputable def rgb_to_xyz_pixel (p : RPixel) : RPixel :=
  let r := p.1; let g := p.2.1; let b := p.2.2
  (0.412453 * r + 0.357580 * g + 0.180423 * b,
   0.212671 * r + 0.715160 * g + 0.072169 * b,
   0.019334 * r + 0.119193 * g + 0.950227 * b)

/-- One pixel of `xyz_to_rgb`: the fixed matrix of the source. -/
noncomputable def xyz_to_rgb_pixel (p : RPixel) : RPixel :=
  let x := p.1; let y := p.2.1; let z := p.2.2
  (3.2404813432005266 * x + -1.5371515162713185 * y + -0.4985363261688878 * z,
   -0.9692549499965682 * x + 1.8759900014898907 * y + 0.0415559265582928 * z,
   0.0556466391351772 * x + -0.2040413383665112 * y + 1.0573110696453443 * z)

/-- The Lab nonlinearity of `rgb2lab`: threshold `0.008856`, cube root of the
clamped value (`xyz_normalized.clamp(min=threshold) ** (1/3.0)`) above the
threshold, else `7.787 * x + 4/29`. -/
noncomputable def labF (t : ℝ) : ℝ :=
  if t > 0.008856 then (max t 0.008856) ^ ((1 : ℝ) / 3) else 7.787 * t + 4 / 29

/-- The inverse Lab nonlinearity inside `lab2rgb`: threshold `0.2068966`,
`fxyz ** 3.0` (the real cube) above it, else `(fxyz - 4/29) / 7.787`. -/
noncomputable def labFinv (f : ℝ) : ℝ :=
  if f > 0.2068966 then f ^ (3 : ℕ) else (f - 4 / 29) / 7.787

/-- `torch.clamp(x, min=0.0, max=1.0)` on one real value. -/
noncomputable def clamp01 (x : ℝ) : ℝ := min (max x 0) 1

/-- One pixel of `rgb2lab`: sRGB → linear RGB → XYZ, normalisation by the D65
white point `(0.95047, 1.0, 1.08883)`, the Lab nonlinearity, and the final
`L = 116 y - 16`, `a = 500 (x - y)`, `b = 200 (y - z)`. -/
noncomputable def rgb2lab_pixel (p : RPixel) : RPixel :=
  let lin : RPixel := (rgb_to_linear_rgb_val p.1, rgb_to_linear_rgb_val p.2.1,
    rgb_to_linear_rgb_val p.2.2)
  let xyz := rgb_to_xyz_pixel lin
  let x := labF (xyz.1 / 0.95047)
  let y := labF (xyz.2.1 / 1.0)
  let z := labF (xyz.2.2 / 1.08883)
  (116.0 * y - 16.0, 500.0 * (x - y), 200.0 * (y - z))

/-- One pixel of `lab2rgb`: recover `fy, fx, fz` from `L, a, b`, clamp `fz`
at 0 (`fz.clamp(min=0.0)`), invert the Lab nonlinearity, multiply by the D65
white point, convert XYZ → linear RGB → sRGB, and optionally clamp to
`[0, 1]`. -/
noncomputable def lab2rgb_pixel (p : RPixel) (clip : Bool) : RPixel :=
  let L := p.1; let a := p.2.1; let b := p.2.2
  let fy := (L + 16.0) / 116.0
  let fx := a / 500.0 + fy
  let fz := max (fy - b / 200.0) 0
  let xyz : RPixel := (labFinv fx * 0.95047, labFinv fy * 1.0, labFinv fz * 1.08883)
  let rgbs := xyz_to_rgb_pixel xyz
  let rgb : RPixel := (linear_rgb_to_rgb_val rgbs.1, linear_rgb_to_rgb_val rgbs.2.1,
    linear_rgb_to_rgb_val rgbs.2.2)
  if clip then (clamp01 rgb.1, clamp01 rgb.2.1, clamp01 rgb.2.2) else rgb

/-- `rgb_to_linear_rgb` on a whole image. -/
noncomputable def rgb_to_linear_rgb {ι : Type} (img : ι → RPixel) : ι → RPixel :=
  fun i => ((rgb_to_linear_rgb_val (img i).1, rgb_to_linear_rgb_val (img i).2.1,
    rgb_to_linear_rgb_val (img i).2.2) : RPixel)

/-- `linear_rgb_to_rgb` on a whole image. -/
noncomputable def linear_rgb_to_rgb {ι : Type} (img : ι → RPixel) : ι → RPixel :=
  fun i => ((linear_rgb_to_rgb_val (img i).1, linear_rgb_to_rgb_val (img i).2.1,
    linear_rgb_to_rgb_val (img i).2.2) : RPixel)

/-- `rgb_to_xyz` on a whole image. -/
noncomputable def rgb_to_xyz {ι : Type} (img : ι → RPixel) : ι → RPixel :=
  fun i => rgb_to_xyz_pixel (img i)

/-- `xyz_to_rgb` on a whole image. -/
noncomputable def xyz_to_rgb {ι : Type} (img : ι → RPixel) : ι → RPixel :=
  fun i => xyz_to_rgb_pixel (img i)

/-- `rgb2lab` on a whole image. -/
noncomputable def rgb2lab {ι : Type} (img : ι → RPixel) : ι → RPixel :=
  fun i => rgb2lab_pixel (img i)

/-- `lab2rgb` on a whole image, default `clip=True` as in the source. -/
noncomputable def lab2rgb {ι : Type} (img : ι → RPixel) (clip : Bool := true) : ι → RPixel :=
  fun i => lab2rgb_pixel (img i) clip

/-- `fuse_luma_chroma` for unbatched rank-3 inputs, where `torch.cat(·, dim=0)`
concatenates along the channel axis: `img_gray` is a one-channel image.  The
source performs `img_gray *= 100` IN PLACE before using it, so the model
returns the final state of the caller's `img_gray` buffer together with the
output: `(100 * gray, lab2rgb(cat([100 * gray, a, b])))`. -/
noncomputable def fuse_luma_chroma {ι : Type} (gray : ι → ℝ) (img_rgb : ι → RPixel) :
    (ι → ℝ) × (ι → RPixel) :=
  let gray2 := fun i => gray i * 100
  (gray2, fun i =>
    let lab := rgb2lab_pixel (img_rgb i)
    lab2rgb_pixel (gray2 i, lab.2.1, lab.2.2) true)

/-! ### Buffer-passing call wrappers

Each wrapper returns the final state of the caller's input buffer together
with the function's output.  The bodies are transcribed from the source: only
`fuse_luma_chroma` contains an in-place operation (`img_gray *= 100`); every
other function only reads its input. -/

/-- Calling `rgb2hsv`: the input buffer is only read. -/
def rgb2hsv_call {ι : Type} (img : ι → Pixel) (eps : ℚ := 1e-8) :
    (ι → Pixel) × (ι → Pixel) := (img, rgb2hsv img eps)

/-- Calling `hsv2rgb`: the input buffer is only read. -/
def hsv2rgb_call {ι : Type} (img : ι → Pixel) : (ι → Pixel) × (ι → Pixel) :=
  (img, hsv2rgb img)

/-- Calling `rgb2yuv`: the input buffer is only read. -/
def rgb2yuv_call {ι : Type} (img : ι → Pixel) (clip : Bool := true) :
    (ι → Pixel) × (ι → Pixel) := (img, rgb2yuv img clip)

/-- Calling `yuv2rgb`: the input buffer is only read. -/
def yuv2rgb_call {ι : Type} (img : ι → Pixel) (clip : Bool := true) :
    (ι → Pixel) × (ι → Pixel) := (img, yuv2rgb img clip)

/-- Calling `rgb_to_linear_rgb`: the input buffer is only read. -/
noncomputable def rgb_to_linear_rgb_call {ι : Type} (img : ι → RPixel) :
    (ι → RPixel) × (ι → RPixel) := (img, rgb_to_linear_rgb img)

/-- Calling `linear_rgb_to_rgb`: the input buffer is only read. -/
noncomputable def linear_rgb_to_rgb_call {ι : Type} (img : ι → RPixel) :
    (ι → RPixel) × (ι → RPixel) := (img, linear_rgb_to_rgb img)

/-- Calling `rgb_to_xyz`: the input buffer is only read. -/
noncomputable def rgb_to_xyz_call {ι : Type} (img : ι → RPixel) :
    (ι → RPixel) × (ι → RPixel) := (img, rgb_to_xyz img)

/-- Calling `xyz_to_rgb`: the input buffer is only read. -/
noncomputable def xyz_to_rgb_call {ι : Type} (img : ι → RPixel) :
    (ι → RPixel) × (ι → RPixel) := (img, xyz_to_rgb img)

/-- Calling `rgb2lab`: the input buffer is only read. -/
noncomputable def rgb2lab_call {ι : Type} (img : ι → RPixel) :
    (ι → RPixel) × (ι → RPixel) := (img, rgb2lab img)

/-- Calling `lab2rgb`: the input buffer is only read. -/
noncomputable def lab2rgb_call {ι : Type} (img : ι → RPixel) (clip : Bool := true) :
    (ι → RPixel) × (ι → RPixel) := (img, lab2rgb img clip)
end Pycomar

namespace Pycomar

lemma floor_intCast_div_six (m : ℤ) : ⌊(m : ℚ) / 6⌋ = m / 6 := by
  have h1 : m / 6 * 6 ≤ m := by omega
  have h2 : m < (m / 6 + 1) * 6 := by omega
  refine Int.floor_eq_iff.mpr ⟨?_, ?_⟩
  · rw [le_div_iff (by norm_num : (0:ℚ) < 6)]
    exact_mod_cast h1
  · rw [div_lt_iff (by norm_num : (0:ℚ) < 6)]
    push_cast
    exact_mod_cast h2

lemma floor_div_six (u : ℚ) : ⌊u / 6⌋ = ⌊u⌋ / 6 := by
  have h0 : (⌊u⌋ : ℚ) ≤ u := Int.floor_le u
  have h0' : u < ⌊u⌋ + 1 := Int.lt_floor_add_one u
  have h1 : ⌊u⌋ / 6 * 6 ≤ ⌊u⌋ := by omega
  have h2 : ⌊u⌋ + 1 ≤ (⌊u⌋ / 6 + 1) * 6 := by omega
  refine Int.floor_eq_iff.mpr ⟨?_, ?_⟩
  · rw [le_div_iff (by norm_num : (0:ℚ) < 6)]
    calc ((⌊u⌋ / 6 : ℤ) : ℚ) * 6 ≤ (⌊u⌋ : ℚ) := by exact_mod_cast h1
    _ ≤ u := h0
  · rw [div_lt_iff (by norm_num : (0:ℚ) < 6)]
    calc u < (⌊u⌋ : ℚ) + 1 := h0'
    _ ≤ ((⌊u⌋ / 6 : ℤ) + 1) * 6 := by exact_mod_cast h2

lemma tmod_intCast_six (m : ℤ) : tmod ((m : ℚ)) 6 = ((m % 6 : ℤ) : ℚ) := by
  rw [tmod, floor_intCast_div_six]
  have : m % 6 = m - 6 * (m / 6) := by omega
  rw [this]
  push_cast
  ring

lemma tmod_sub_floor_eq_fract (u : ℚ) :
    tmod u 6 - tmod ((⌊u⌋ : ℚ)) 6 = Int.fract u := by
  rw [tmod_intCast_six, tmod, floor_div_six, ← Int.self_sub_floor]
  have : (⌊u⌋ % 6 : ℤ) = ⌊u⌋ - 6 * (⌊u⌋ / 6) := by omega
  rw [this]
  push_cast
  ring

/-- Normal form of one pixel of `hsv2rgb`. -/
lemma hsv2rgb_pixel_eq (px : Pixel) :
    hsv2rgb_pixel px =
      sector (⌊px.1 / (2 * mathpi) * 6⌋ % 6) px.2.2
        (px.2.2 * (1 - Int.fract (px.1 / (2 * mathpi) * 6) * px.2.1))
        (px.2.2 * (1 - px.2.1))
        (px.2.2 * (1 - (1 - Int.fract (px.1 / (2 * mathpi) * 6)) * px.2.1)) := by
  unfold hsv2rgb_pixel
  dsimp only
  rw [tmod_sub_floor_eq_fract, tmod_intCast_six, Int.floor_intCast]

end Pycomar

namespace Pycomar

lemma tmod_one_eq_fract (x : ℚ) : tmod x 1 = Int.fract x := by
  rw [tmod, ← Int.self_sub_floor, div_one]
  ring

lemma mathpi_pos : 0 < mathpi := by norm_num [mathpi]

lemma hue_mem (x : ℚ) :
    0 ≤ 2 * mathpi * tmod x 1 ∧ ((2 * mathpi * tmod x 1 : ℚ) : ℝ) < 2 * Real.pi := by
  rw [tmod_one_eq_fract]
  constructor
  · have := Int.fract_nonneg x
    have := mathpi_pos
    positivity
  · have h1 : Int.fract x < 1 := Int.fract_lt_one x
    have h2 : (0:ℚ) ≤ Int.fract x := Int.fract_nonneg x
    have h3 : 2 * mathpi * Int.fract x < 2 * mathpi := by
      nlinarith [mathpi_pos]
    have h4 : ((2 * mathpi * Int.fract x : ℚ) : ℝ) < ((2 * mathpi : ℚ) : ℝ) := by
      exact_mod_cast h3
    have h5 : ((2 * mathpi : ℚ) : ℝ) < 2 * Real.pi := by
      have hlt : ((mathpi : ℚ) : ℝ) < 3.14159265358979323846 := by
        norm_num [mathpi]
      push_cast
      nlinarith [Real.pi_gt_d20]
    linarith

lemma rgb2hsv_pixel_hue_mem (p : Pixel) (eps : ℚ) :
    0 ≤ (rgb2hsv_pixel p eps).1 ∧ ((rgb2hsv_pixel p eps).1 : ℝ) < 2 * Real.pi := by
  unfold rgb2hsv_pixel
  dsimp only
  exact hue_mem _

lemma rgb2hsv_pixel_sv_mem (p : Pixel)
    (hr0 : 0 ≤ p.1) (hr1 : p.1 ≤ 1) (hg0 : 0 ≤ p.2.1) (hg1 : p.2.1 ≤ 1)
    (hb0 : 0 ≤ p.2.2) (hb1 : p.2.2 ≤ 1) :
    (0 ≤ (rgb2hsv_pixel p 1e-8).2.1 ∧ (rgb2hsv_pixel p 1e-8).2.1 ≤ 1) ∧
    (0 ≤ (rgb2hsv_pixel p 1e-8).2.2 ∧ (rgb2hsv_pixel p 1e-8).2.2 ≤ 1) := by
  obtain ⟨r, g, b⟩ := p
  unfold rgb2hsv_pixel
  dsimp only
  have hmax0 : (0:ℚ) ≤ max r (max g b) := le_trans hr0 (le_max_left _ _)
  have hmax1 : max r (max g b) ≤ 1 := max_le hr1 (max_le hg1 hb1)
  have hmin0 : (0:ℚ) ≤ min r (min g b) := le_min hr0 (le_min hg0 hb0)
  have hminmax : min r (min g b) ≤ max r (max g b) :=
    le_trans (min_le_left _ _) (le_max_left _ _)
  have hden : (0:ℚ) < max r (max g b) + 1e-8 := by positivity
  refine ⟨⟨?_, ?_⟩, ?_, ?_⟩
  · exact div_nonneg (by linarith) (le_of_lt hden)
  · rw [div_le_one hden]
    linarith
  · exact hmax0
  · exact hmax1

end Pycomar

namespace Pycomar

lemma hsv2rgb_pixel_mem (px : Pixel)
    (hs0 : 0 ≤ px.2.1) (hs1 : px.2.1 ≤ 1) (hv0 : 0 ≤ px.2.2) (hv1 : px.2.2 ≤ 1) :
    (0 ≤ (hsv2rgb_pixel px).1 ∧ (hsv2rgb_pixel px).1 ≤ 1) ∧
    (0 ≤ (hsv2rgb_pixel px).2.1 ∧ (hsv2rgb_pixel px).2.1 ≤ 1) ∧
    (0 ≤ (hsv2rgb_pixel px).2.2 ∧ (hsv2rgb_pixel px).2.2 ≤ 1) := by
  rw [hsv2rgb_pixel_eq]
  set s := px.2.1 with hs
  set v := px.2.2 with hv
  set f := Int.fract (px.1 / (2 * mathpi) * 6) with hfdef
  have hf0 : 0 ≤ f := Int.fract_nonneg _
  have hf1 : f < 1 := Int.fract_lt_one _
  have hp : 0 ≤ v * (1 - s) ∧ v * (1 - s) ≤ 1 := ⟨by nlinarith, by nlinarith⟩
  have hq : 0 ≤ v * (1 - f * s) ∧ v * (1 - f * s) ≤ 1 := by
    constructor <;> nlinarith
  have ht : 0 ≤ v * (1 - (1 - f) * s) ∧ v * (1 - (1 - f) * s) ≤ 1 := by
    constructor <;> nlinarith
  have hV : 0 ≤ v ∧ v ≤ 1 := ⟨hv0, hv1⟩
  unfold sector
  split_ifs <;> exact ⟨by tauto, by tauto, by tauto⟩

lemma hsv2rgb_pixel_shift (px : Pixel) :
    hsv2rgb_pixel (px.1 + 2 * mathpi, px.2.1, px.2.2) = hsv2rgb_pixel px := by
  rw [hsv2rgb_pixel_eq, hsv2rgb_pixel_eq]
  have hm : (2 * mathpi) ≠ 0 := by norm_num [mathpi]
  have hdiv : (px.1 + 2 * mathpi) / (2 * mathpi) * 6 = px.1 / (2 * mathpi) * 6 + 6 := by
    field_simp
    ring
  have h6 : (px.1 + 2 * mathpi) / (2 * mathpi) * 6 =
      px.1 / (2 * mathpi) * 6 + ((6 : ℤ) : ℚ) := by
    rw [hdiv]; norm_num
  rw [h6, Int.floor_add_int, Int.fract_add_int]
  have : (⌊px.1 / (2 * mathpi) * 6⌋ + 6) % 6 = ⌊px.1 / (2 * mathpi) * 6⌋ % 6 := by omega
  rw [this]

end Pycomar

namespace Pycomar

/-- Claim C8. -/
theorem rgb2yuv_clip_independent {ι : Type} (img : ι → Pixel) (clip1 clip2 : Bool) :
    rgb2yuv img clip1 = rgb2yuv img clip2 := rfl

/-- Claim C10. -/
theorem hsv2rgb_hue_periodic {ι : Type} (img : ι → Pixel) :
    hsv2rgb (fun i => ((img i).1 + 2 * mathpi, (img i).2.1, (img i).2.2)) = hsv2rgb img := by
  funext i
  exact hsv2rgb_pixel_shift (img i)

/-- Claim C9. -/
theorem hsv2rgb_range {ι : Type} (img : ι → Pixel) (i : ι)
    (hs0 : 0 ≤ (img i).2.1) (hs1 : (img i).2.1 ≤ 1)
    (hv0 : 0 ≤ (img i).2.2) (hv1 : (img i).2.2 ≤ 1) :
    (0 ≤ (hsv2rgb img i).1 ∧ (hsv2rgb img i).1 ≤ 1) ∧
    (0 ≤ (hsv2rgb img i).2.1 ∧ (hsv2rgb img i).2.1 ≤ 1) ∧
    (0 ≤ (hsv2rgb img i).2.2 ∧ (hsv2rgb img i).2.2 ≤ 1) :=
  hsv2rgb_pixel_mem (img i) hs0 hs1 hv0 hv1

theorem hsv2rgb_range_witness :
    (0 ≤ (hsv2rgb (fun _ : Unit => ((10, 1/2, 1/3) : Pixel)) ()).1 ∧
      (hsv2rgb (fun _ : Unit => ((10, 1/2, 1/3) : Pixel)) ()).1 ≤ 1) ∧
    (0 ≤ (hsv2rgb (fun _ : Unit => ((10, 1/2, 1/3) : Pixel)) ()).2.1 ∧
      (hsv2rgb (fun _ : Unit => ((10, 1/2, 1/3) : Pixel)) ()).2.1 ≤ 1) ∧
    (0 ≤ (hsv2rgb (fun _ : Unit => ((10, 1/2, 1/3) : Pixel)) ()).2.2 ∧
      (hsv2rgb (fun _ : Unit => ((10, 1/2, 1/3) : Pixel)) ()).2.2 ≤ 1) :=
  hsv2rgb_range (fun _ : Unit => ((10, 1/2, 1/3) : Pixel)) ()
    (by norm_num) (by norm_num) (by norm_num) (by norm_num)

/-- Claim C6. -/
theorem rgb2hsv_range {ι : Type} (img : ι → Pixel) (i : ι) :
    (0 ≤ (rgb2hsv img 1e-8 i).1 ∧ ((rgb2hsv img 1e-8 i).1 : ℝ) < 2 * Real.pi) ∧
    ((0 ≤ (img i).1 ∧ (img i).1 ≤ 1) → (0 ≤ (img i).2.1 ∧ (img i).2.1 ≤ 1) →
      (0 ≤ (img i).2.2 ∧ (img i).2.2 ≤ 1) →
      (0 ≤ (rgb2hsv img 1e-8 i).2.1 ∧ (rgb2hsv img 1e-8 i).2.1 ≤ 1) ∧
      (0 ≤ (rgb2hsv img 1e-8 i).2.2 ∧ (rgb2hsv img 1e-8 i).2.2 ≤ 1)) := by
  refine ⟨rgb2hsv_pixel_hue_mem (img i) 1e-8, ?_⟩
  intro hr hg hb
  exact rgb2hsv_pixel_sv_mem (img i) hr.1 hr.2 hg.1 hg.2 hb.1 hb.2

theorem rgb2hsv_range_witness :
    (0 ≤ (rgb2hsv (fun _ : Unit => ((1/2, 1/3, 1/4) : Pixel)) 1e-8 ()).1 ∧
      ((rgb2hsv (fun _ : Unit => ((1/2, 1/3, 1/4) : Pixel)) 1e-8 ()).1 : ℝ) < 2 * Real.pi) ∧
    ((0 ≤ (rgb2hsv (fun _ : Unit => ((1/2, 1/3, 1/4) : Pixel)) 1e-8 ()).2.1 ∧
      (rgb2hsv (fun _ : Unit => ((1/2, 1/3, 1/4) : Pixel)) 1e-8 ()).2.1 ≤ 1) ∧
    (0 ≤ (rgb2hsv (fun _ : Unit => ((1/2, 1/3, 1/4) : Pixel)) 1e-8 ()).2.2 ∧
      (rgb2hsv (fun _ : Unit => ((1/2, 1/3, 1/4) : Pixel)) 1e-8 ()).2.2 ≤ 1)) := by
  have h := rgb2hsv_range (fun _ : Unit => ((1/2, 1/3, 1/4) : Pixel)) ()
  exact ⟨h.1, h.2 (by norm_num) (by norm_num) (by norm_num)⟩

/-- Claim C7, counterexample. -/
theorem rgb2hsv_red_saturation_ne_one :
    (rgb2hsv_pixel (1, 0, 0) 1e-8).2.1 ≠ 1 := by
  unfold rgb2hsv_pixel
  norm_num

/-- Claim C7, amended. -/
theorem rgb2hsv_red_white {ι : Type} (imgA imgB : ι → Pixel) (i j : ι)
    (hA : imgA i = (1, 0, 0)) (hB : imgB j = (1, 1, 1)) :
    rgb2hsv imgA 1e-8 i = (0, 100000000 / 100000001, 1) ∧
    (rgb2hsv imgB 1e-8 j).2.1 = 0 ∧ (rgb2hsv imgB 1e-8 j).2.2 = 1 := by
  unfold rgb2hsv
  rw [hA, hB]
  refine ⟨?_, ⟨?_, ?_⟩⟩
  · unfold rgb2hsv_pixel argmaxc
    norm_num [tmod, Prod.ext_iff]
  · unfold rgb2hsv_pixel
    norm_num
  · unfold rgb2hsv_pixel
    norm_num

theorem rgb2hsv_red_white_witness :
    rgb2hsv (fun _ : Unit => ((1, 0, 0) : Pixel)) 1e-8 () = (0, 100000000 / 100000001, 1) ∧
    (rgb2hsv (fun _ : Unit => ((1, 1, 1) : Pixel)) 1e-8 ()).2.1 = 0 ∧
    (rgb2hsv (fun _ : Unit => ((1, 1, 1) : Pixel)) 1e-8 ()).2.2 = 1 :=
  rgb2hsv_red_white (fun _ : Unit => ((1, 0, 0) : Pixel))
    (fun _ : Unit => ((1, 1, 1) : Pixel)) () () rfl rfl

end Pycomar

namespace Pycomar

/-- Claim C5, counterexample. -/
theorem yuv_roundtrip_exceeds_1e5 :
    1e-5 < |(yuv2rgb (rgb2yuv (fun _ : Unit => ((1, 0, 0) : Pixel)) true) false ()).2.2 -
      ((1 : ℚ), (0 : ℚ), (0 : ℚ)).2.2| := by
  unfold yuv2rgb rgb2yuv yuv2rgb_pixel rgb2yuv_pixel
  norm_num
  rw [abs_of_nonneg (by norm_num : (0:ℚ) ≤ 156557 / 10000000000)]
  norm_num

/-- Claim C5, amended. -/
theorem yuv_roundtrip {ι : Type} (img : ι → Pixel) (i : ι)
    (hr0 : 0 ≤ (img i).1) (hr1 : (img i).1 ≤ 1)
    (hg0 : 0 ≤ (img i).2.1) (hg1 : (img i).2.1 ≤ 1)
    (hb0 : 0 ≤ (img i).2.2) (hb1 : (img i).2.2 ≤ 1) :
    |(yuv2rgb (rgb2yuv img true) false i).1 - (img i).1| ≤ 2.1e-5 ∧
    |(yuv2rgb (rgb2yuv img true) false i).2.1 - (img i).2.1| ≤ 2.1e-5 ∧
    |(yuv2rgb (rgb2yuv img true) false i).2.2 - (img i).2.2| ≤ 2.1e-5 := by
  obtain ⟨r, g, b, hp⟩ : ∃ r g b, img i = (r, g, b) :=
    ⟨(img i).1, (img i).2.1, (img i).2.2, rfl⟩
  unfold yuv2rgb rgb2yuv yuv2rgb_pixel rgb2yuv_pixel
  rw [hp] at hr0 hr1 hg0 hg1 hb0 hb1 ⊢
  rw [if_neg Bool.false_ne_true]
  dsimp only at hr0 hr1 hg0 hg1 hb0 hb1 ⊢
  refine ⟨?_, ?_, ?_⟩ <;> rw [abs_le] <;> constructor <;> nlinarith

end Pycomar

namespace Pycomar

theorem yuv_roundtrip_witness :
    |(yuv2rgb (rgb2yuv (fun _ : Unit => ((1, 0, 0) : Pixel)) true) false ()).1 -
      ((fun _ : Unit => ((1, 0, 0) : Pixel)) ()).1| ≤ 2.1e-5 ∧
    |(yuv2rgb (rgb2yuv (fun _ : Unit => ((1, 0, 0) : Pixel)) true) false ()).2.1 -
      ((fun _ : Unit => ((1, 0, 0) : Pixel)) ()).2.1| ≤ 2.1e-5 ∧
    |(yuv2rgb (rgb2yuv (fun _ : Unit => ((1, 0, 0) : Pixel)) true) false ()).2.2 -
      ((fun _ : Unit => ((1, 0, 0) : Pixel)) ()).2.2| ≤ 2.1e-5 :=
  yuv_roundtrip (fun _ : Unit => ((1, 0, 0) : Pixel)) ()
    (by norm_num) (by norm_num) (by norm_num) (by norm_num) (by norm_num) (by norm_num)

/-- Claim C4. -/
theorem fuse_luma_chroma_mutates_input_others_pure {ι : Type} :
    (∀ (gray : ι → ℝ) (img_rgb : ι → RPixel) (i : ι),
        (fuse_luma_chroma gray img_rgb).1 i = gray i * 100) ∧
    (∀ (gray : ι → ℝ) (img_rgb : ι → RPixel) (i : ι),
        (fuse_luma_chroma gray img_rgb).2 i =
          lab2rgb_pixel (gray i * 100, (rgb2lab_pixel (img_rgb i)).2.1,
            (rgb2lab_pixel (img_rgb i)).2.2) true) ∧
    ((fuse_luma_chroma (fun _ : Unit => 1) (fun _ : Unit => ((0, 0, 0) : RPixel))).1 ≠
      fun _ : Unit => 1) ∧
    (∀ (img : ι → Pixel) (eps : ℚ), (rgb2hsv_call img eps).1 = img) ∧
    (∀ (img : ι → Pixel), (hsv2rgb_call img).1 = img) ∧
    (∀ (img : ι → Pixel) (clip : Bool), (rgb2yuv_call img clip).1 = img) ∧
    (∀ (img : ι → Pixel) (clip : Bool), (yuv2rgb_call img clip).1 = img) ∧
    (∀ (img : ι → RPixel), (rgb_to_linear_rgb_call img).1 = img) ∧
    (∀ (img : ι → RPixel), (linear_rgb_to_rgb_call img).1 = img) ∧
    (∀ (img : ι → RPixel), (rgb_to_xyz_call img).1 = img) ∧
    (∀ (img : ι → RPixel), (xyz_to_rgb_call img).1 = img) ∧
    (∀ (img : ι → RPixel), (rgb2lab_call img).1 = img) ∧
    (∀ (img : ι → RPixel) (clip : Bool), (lab2rgb_call img clip).1 = img) := by
  refine ⟨fun _ _ _ => rfl, fun _ _ _ => rfl, ?_, fun _ _ => rfl, fun _ => rfl,
    fun _ _ => rfl, fun _ _ => rfl, fun _ => rfl, fun _ => rfl, fun _ => rfl,
    fun _ => rfl, fun _ => rfl, fun _ _ => rfl⟩
  intro h
  have h2 := congrFun h ()
  unfold fuse_luma_chroma at h2
  norm_num at h2

/-- Claim C3, counterexample. -/
theorem fuse_luma_chroma_batched_fails :
    fuse_luma_chroma_shape [1, 1, 2, 2] [1, 3, 2, 2] = .error .catErr := by rfl

/-- Claim C3, amended. -/
theorem fuse_luma_chroma_unbatched {ι : Type} (H W : ℕ)
    (gray : ι → ℝ) (img_rgb : ι → RPixel) :
    fuse_luma_chroma_shape [1, H, W] [3, H, W] = .ok [3, H, W] ∧
    (fuse_luma_chroma gray img_rgb).2 = fun i =>
      lab2rgb_pixel ((fuse_luma_chroma gray img_rgb).1 i,
        (rgb2lab_pixel (img_rgb i)).2.1, (rgb2lab_pixel (img_rgb i)).2.2) true := by
  constructor
  · show (catDim0 [1, H, W] [2, H, W] >>= fun fused => lab2rgb_shape fused true) =
      .ok [3, H, W]
    simp only [catDim0, if_pos rfl]
    rfl
  · rfl

end Pycomar

namespace Pycomar

/-- Claim C1, counterexample. -/
theorem rgb2yuv_no_validation :
    ([4, 1, 1] : List ℕ).getD (([4, 1, 1] : List ℕ).length - 3) 0 ≠ 3 ∧
    rgb2yuv_shape [4, 1, 1] true = .ok [3, 1, 1] ∧
    yuv2rgb_shape [4, 1, 1] true = .ok [3, 1, 1] := ⟨by decide, rfl, rfl⟩

/-- Claim C1, amended. -/
theorem shape_validation (s : List ℕ)
    (hbad : s.length < 3 ∨ s.getD (s.length - 3) 0 ≠ 3) :
    rgb2hsv_shape s = .error .shapeMismatch ∧
    hsv2rgb_shape s = .error .shapeMismatch ∧
    rgb_to_linear_rgb_shape s = .error .shapeMismatch ∧
    linear_rgb_to_rgb_shape s = .error .shapeMismatch ∧
    rgb_to_xyz_shape s = .error .shapeMismatch ∧
    xyz_to_rgb_shape s = .error .shapeMismatch ∧
    rgb2lab_shape s = .error .shapeMismatch ∧
    (∀ clip, lab2rgb_shape s clip = .error .shapeMismatch) ∧
    (∀ clip, 3 ≤ s.length → 3 < s.getD (s.length - 3) 0 →
      rgb2yuv_shape s clip = .ok (stackChannels 3 (s.eraseIdx (s.length - 3))) ∧
      yuv2rgb_shape s clip = .ok (stackChannels 3 (s.eraseIdx (s.length - 3)))) ∧
    (∀ clip, s.length < 3 ∨ s.getD (s.length - 3) 0 < 3 →
      rgb2yuv_shape s clip = .error .indexErr ∧
      yuv2rgb_shape s clip = .error .indexErr) := by
  have hv : validateShape s = .error .shapeMismatch := by
    unfold validateShape
    exact if_pos hbad
  refine ⟨?_, ?_, ?_, ?_, ?_, ?_, ?_, ?_, ?_, ?_⟩
  · simp [rgb2hsv_shape, hv, Bind.bind, Except.bind, Functor.map, Except.map]
  · simp [hsv2rgb_shape, hv, Bind.bind, Except.bind, Functor.map, Except.map]
  · simp [rgb_to_linear_rgb_shape, hv, Bind.bind, Except.bind, Functor.map, Except.map]
  · simp [linear_rgb_to_rgb_shape, hv, Bind.bind, Except.bind, Functor.map, Except.map]
  · simp [rgb_to_xyz_shape, hv, Bind.bind, Except.bind, Functor.map, Except.map]
  · simp [xyz_to_rgb_shape, hv, Bind.bind, Except.bind, Functor.map, Except.map]
  · simp [rgb2lab_shape, hv, Bind.bind, Except.bind, Functor.map, Except.map]
  · intro clip
    simp [lab2rgb_shape, hv, Bind.bind, Except.bind, Functor.map, Except.map]
  · intro clip hlen hchan
    have h0 : ¬ s.length < 3 := by omega
    unfold rgb2yuv_shape yuv2rgb_shape selectChannel
    rw [if_neg h0, if_pos (by omega : 0 < s.getD (s.length - 3) 0),
      if_neg h0, if_pos (by omega : 1 < s.getD (s.length - 3) 0),
      if_neg h0, if_pos (by omega : 2 < s.getD (s.length - 3) 0)]
    constructor <;> simp [Bind.bind, Except.bind, Pure.pure, Except.pure, ite_self]
  · intro clip hsmall
    unfold rgb2yuv_shape yuv2rgb_shape selectChannel
    rcases Nat.lt_or_ge s.length 3 with hlen | hlen
    · rw [if_pos hlen]
      exact ⟨rfl, rfl⟩
    · have h0 : ¬ s.length < 3 := by omega
      have hc : s.getD (s.length - 3) 0 < 3 := by
        rcases hsmall with h | h
        · omega
        · exact h
      rw [if_neg h0]
      rcases Nat.lt_or_ge (s.getD (s.length - 3) 0) 1 with hc0 | hc0
      · rw [if_neg (by omega : ¬ 0 < s.getD (s.length - 3) 0)]
        exact ⟨rfl, rfl⟩
      · rw [if_pos (by omega : 0 < s.getD (s.length - 3) 0)]
        rcases Nat.lt_or_ge (s.getD (s.length - 3) 0) 2 with hc1 | hc1
        · rw [if_neg h0, if_neg (by omega : ¬ 1 < s.getD (s.length - 3) 0)]
          exact ⟨rfl, rfl⟩
        · rw [if_neg h0, if_pos (by omega : 1 < s.getD (s.length - 3) 0),
            if_neg h0, if_neg (by omega : ¬ 2 < s.getD (s.length - 3) 0)]
          exact ⟨rfl, rfl⟩

theorem shape_validation_witness :
    rgb2hsv_shape [2] = .error .shapeMismatch ∧
    hsv2rgb_shape [2] = .error .shapeMismatch ∧
    rgb_to_linear_rgb_shape [2] = .error .shapeMismatch ∧
    linear_rgb_to_rgb_shape [2] = .error .shapeMismatch ∧
    rgb_to_xyz_shape [2] = .error .shapeMismatch ∧
    xyz_to_rgb_shape [2] = .error .shapeMismatch ∧
    rgb2lab_shape [2] = .error .shapeMismatch ∧
    (∀ clip, lab2rgb_shape [2] clip = .error .shapeMismatch) ∧
    (∀ clip, 3 ≤ ([2] : List ℕ).length → 3 < ([2] : List ℕ).getD (([2] : List ℕ).length - 3) 0 →
      rgb2yuv_shape [2] clip = .ok (stackChannels 3 (([2] : List ℕ).eraseIdx (([2] : List ℕ).length - 3))) ∧
      yuv2rgb_shape [2] clip = .ok (stackChannels 3 (([2] : List ℕ).eraseIdx (([2] : List ℕ).length - 3)))) ∧
    (∀ clip, ([2] : List ℕ).length < 3 ∨ ([2] : List ℕ).getD (([2] : List ℕ).length - 3) 0 < 3 →
      rgb2yuv_shape [2] clip = .error .indexErr ∧
      yuv2rgb_shape [2] clip = .error .indexErr) :=
  shape_validation [2] (by norm_num)

end Pycomar

namespace Pycomar

/-- Rational certificate for an upper bound on `x ^ (m/n)`. -/
lemma rpow_le_of_pow_le {x q : ℝ} {m n : ℕ} (hx : 0 ≤ x) (hq : 0 ≤ q) (hn : n ≠ 0)
    (h : x ^ m ≤ q ^ n) : x ^ ((m : ℝ) / n) ≤ q := by
  have hkey : (x ^ ((m : ℝ) / n)) ^ n = x ^ m := by
    rw [← Real.rpow_natCast (x ^ ((m : ℝ) / n)) n, ← Real.rpow_mul hx,
      div_mul_cancel₀, Real.rpow_natCast]
    exact_mod_cast (Nat.cast_ne_zero (R := ℝ)).mpr hn
  refine le_of_pow_le_pow_left hn hq ?_
  rw [hkey]
  exact h

/-- Rational certificate for a lower bound on `x ^ (m/n)`. -/
lemma le_rpow_of_pow_le {x q : ℝ} {m n : ℕ} (hx : 0 ≤ x) (hn : n ≠ 0)
    (h : q ^ n ≤ x ^ m) : q ≤ x ^ ((m : ℝ) / n) := by
  have hkey : (x ^ ((m : ℝ) / n)) ^ n = x ^ m := by
    rw [← Real.rpow_natCast (x ^ ((m : ℝ) / n)) n, ← Real.rpow_mul hx,
      div_mul_cancel₀, Real.rpow_natCast]
    exact_mod_cast (Nat.cast_ne_zero (R := ℝ)).mpr hn
  refine le_of_pow_le_pow_left hn (Real.rpow_nonneg hx _) ?_
  rw [hkey]
  exact h

/-- The Lab nonlinearity is positive on nonnegative inputs. -/
lemma labF_pos {t : ℝ} (ht : 0 ≤ t) : 0 < labF t := by
  unfold labF
  split_ifs with h
  · exact Real.rpow_pos_of_pos (lt_max_of_lt_right (by norm_num)) _
  · nlinarith

/-- `lab2rgb` inverts the Lab nonlinearity of `rgb2lab` up to `6e-7`; the
error comes from the thin band where `rgb2lab` takes the cube-root branch but
the cube root does not exceed `lab2rgb`'s threshold `0.2068966`. -/
lemma labFinv_labF {t : ℝ} (ht : 0 ≤ t) : |labFinv (labF t) - t| ≤ 6e-7 := by
  unfold labF
  split_ifs with h1
  · have hmax : max t 0.008856 = t := max_eq_left (le_of_lt h1)
    rw [hmax]
    have hu0 : (0 : ℝ) ≤ t ^ ((1 : ℝ) / 3) := Real.rpow_nonneg ht _
    have hu3 : (t ^ ((1 : ℝ) / 3)) ^ (3 : ℕ) = t := by
      rw [← Real.rpow_natCast (t ^ ((1 : ℝ) / 3)) 3, ← Real.rpow_mul ht]
      norm_num
    unfold labFinv
    split_ifs with h2
    · rw [hu3, sub_self, abs_zero]
      norm_num
    · push_neg at h2
      have htc : t ≤ 8856457878553252696e-21 := by
        have h3 : t ≤ (0.2068966 : ℝ) ^ (3 : ℕ) := by
          rw [← hu3]
          exact pow_le_pow_left hu0 h2 3
        have h4 : ((0.2068966 : ℝ)) ^ (3 : ℕ) = 8856457878553252696e-21 := by
          norm_num
        linarith [h4 ▸ h3]
      have hq0 : (0.206893 : ℝ) ≤ t ^ ((1 : ℝ) / 3) := by
        refine le_of_pow_le_pow_left (n := 3) (by norm_num) hu0 ?_
        rw [hu3]
        have h5 : ((0.206893 : ℝ)) ^ (3 : ℕ) ≤ 0.008856 := by norm_num
        linarith
      rw [abs_le]
      constructor <;> (ring_nf; ring_nf at htc hq0 h2 h1; linarith)
  · push_neg at h1
    unfold labFinv
    split_ifs with h2
    · exfalso
      nlinarith
    · rw [show (7.787 * t + 4 / 29 - 4 / 29) / 7.787 - t = 0 from by ring, abs_zero]
      norm_num

end Pycomar

namespace Pycomar

/-- Bernoulli lower bound for increments of `x ^ 2.4`. -/
lemma rpow_24_increment {a b : ℝ} (hb : 0 < b) (hab : b ≤ a) :
    b ^ (2.4 : ℝ) + 2.4 * b ^ (1.4 : ℝ) * (a - b) ≤ a ^ (2.4 : ℝ) := by
  have hs : (0 : ℝ) ≤ (a - b) / b := div_nonneg (by linarith) hb.le
  have hbern := one_add_mul_self_le_rpow_one_add (s := (a - b) / b)
    (by linarith) (p := 2.4) (by norm_num)
  have h1 : (1 : ℝ) + (a - b) / b = a / b := by field_simp
  rw [h1, Real.div_rpow (by linarith) hb.le] at hbern
  have hb24 : (0 : ℝ) < b ^ (2.4 : ℝ) := Real.rpow_pos_of_pos hb _
  have h2 : (1 + 2.4 * ((a - b) / b)) * b ^ (2.4 : ℝ) ≤ a ^ (2.4 : ℝ) :=
    (le_div_iff₀ hb24).mp hbern
  have h3 : b ^ (2.4 : ℝ) = b * b ^ (1.4 : ℝ) := by
    rw [show (2.4 : ℝ) = 1 + 1.4 from by norm_num,
      Real.rpow_one_add' hb.le (by norm_num)]
  calc b ^ (2.4 : ℝ) + 2.4 * b ^ (1.4 : ℝ) * (a - b)
      = (1 + 2.4 * ((a - b) / b)) * b ^ (2.4 : ℝ) := by
        rw [h3]
        field_simp
        ring
  _ ≤ a ^ (2.4 : ℝ) := h2

end Pycomar

namespace Pycomar

/-- `rgb_to_linear_rgb` maps `[0,1]` into `[0,1]`. -/
lemma rgb_to_linear_rgb_val_mem {x : ℝ} (h0 : 0 ≤ x) (h1 : x ≤ 1) :
    0 ≤ rgb_to_linear_rgb_val x ∧ rgb_to_linear_rgb_val x ≤ 1 := by
  unfold rgb_to_linear_rgb_val
  split_ifs with h
  · constructor
    · exact Real.rpow_nonneg (div_nonneg (by linarith) (by norm_num)) _
    · refine Real.rpow_le_one (div_nonneg (by linarith) (by norm_num)) ?_ (by norm_num)
      rw [div_le_one (by norm_num : (0:ℝ) < 1.055)]
      linarith
  · constructor <;> (ring_nf; linarith)

/-- `linear_rgb_to_rgb` is monotone up to a `4e-8` defect (it has a small
downward jump at its branch threshold `0.0031308`). -/
lemma linear_rgb_to_rgb_val_quasiMono {u v : ℝ} (h : u ≤ v) :
    linear_rgb_to_rgb_val u ≤ linear_rgb_to_rgb_val v + 4e-8 := by
  unfold linear_rgb_to_rgb_val
  split_ifs with h1 h2 h2
  · have hm : max u 0.0031308 ≤ max v 0.0031308 := max_le_max h le_rfl
    have hmono := Real.rpow_le_rpow
      (le_trans (by norm_num) (le_max_right u 0.0031308)) hm
      (by norm_num : (0:ℝ) ≤ 1/2.4)
    linarith
  · exfalso; linarith
  · push_neg at h1
    have hB : (0.0031308:ℝ) ≤ max v 0.0031308 := le_max_right _ _
    have hq : (0.09047384:ℝ) ≤ (max v 0.0031308) ^ ((1:ℝ)/2.4) := by
      rw [show ((1:ℝ)/2.4) = ((5:ℕ):ℝ)/((12:ℕ):ℝ) from by norm_num]
      refine le_rpow_of_pow_le (by linarith) (by norm_num) ?_
      calc ((0.09047384:ℝ)) ^ (12:ℕ) ≤ (0.0031308:ℝ) ^ (5:ℕ) := by norm_num
      _ ≤ (max v 0.0031308) ^ (5:ℕ) := pow_le_pow_left (by norm_num) hB 5
    linarith
  · linarith

/-- `linear_rgb_to_rgb` inverts `rgb_to_linear_rgb` up to `2e-6` (the error
comes from the thin band where the forward map takes the linear branch but the
result exceeds the inverse map's threshold `0.0031308`). -/
lemma linear_rgb_to_rgb_val_inverts {y : ℝ} (hy : 0 ≤ y) :
    |linear_rgb_to_rgb_val (rgb_to_linear_rgb_val y) - y| ≤ 2e-6 := by
  unfold rgb_to_linear_rgb_val
  split_ifs with h1
  · set b := (y + 0.055) / 1.055 with hbdef
    have hb0 : (0:ℝ) < b := by rw [hbdef]; positivity
    have hbB : (0.09545/1.055 : ℝ) ≤ b := by
      rw [hbdef]
      gcongr
      linarith
    have hq3 : (0.003130807:ℝ) ≤ b ^ (2.4:ℝ) := by
      rw [show (2.4:ℝ) = ((12:ℕ):ℝ)/((5:ℕ):ℝ) from by norm_num]
      refine le_rpow_of_pow_le hb0.le (by norm_num) ?_
      calc ((0.003130807:ℝ)) ^ (5:ℕ) ≤ ((0.09545/1.055:ℝ)) ^ (12:ℕ) := by norm_num
      _ ≤ b ^ (12:ℕ) := pow_le_pow_left (by norm_num) hbB 12
    unfold linear_rgb_to_rgb_val
    rw [if_pos (by linarith : b ^ (2.4:ℝ) > 0.0031308),
      max_eq_left (by linarith : (0.0031308:ℝ) ≤ b ^ (2.4:ℝ))]
    have hbp : (b ^ (2.4:ℝ)) ^ ((1:ℝ)/2.4) = b := by
      rw [← Real.rpow_mul hb0.le]
      norm_num
    rw [hbp, hbdef,
      show 1.055 * ((y + 0.055)/1.055) - 0.055 - y = 0 from by ring, abs_zero]
    norm_num
  · push_neg at h1
    unfold linear_rgb_to_rgb_val
    split_ifs with h2
    · have hy1 : (0.040449936:ℝ) < y := by ring_nf at h2 ⊢; linarith
      rw [max_eq_left h2.le]
      have hy0 : (0:ℝ) ≤ y / 12.92 := div_nonneg hy (by norm_num)
      have hyu : y / 12.92 ≤ 0.04045/12.92 := by gcongr
      have hlow : (0.09047384:ℝ) ≤ (y/12.92) ^ ((1:ℝ)/2.4) := by
        rw [show ((1:ℝ)/2.4) = ((5:ℕ):ℝ)/((12:ℕ):ℝ) from by norm_num]
        refine le_rpow_of_pow_le hy0 (by norm_num) ?_
        calc ((0.09047384:ℝ)) ^ (12:ℕ) ≤ ((0.0031308:ℝ)) ^ (5:ℕ) := by norm_num
        _ ≤ (y/12.92) ^ (5:ℕ) := pow_le_pow_left (by norm_num) (le_of_lt h2) 5
      have hhigh : (y/12.92) ^ ((1:ℝ)/2.4) ≤ 0.0904752 := by
        rw [show ((1:ℝ)/2.4) = ((5:ℕ):ℝ)/((12:ℕ):ℝ) from by norm_num]
        refine rpow_le_of_pow_le hy0 (by norm_num) (by norm_num) ?_
        calc (y/12.92) ^ (5:ℕ) ≤ ((0.04045/12.92:ℝ)) ^ (5:ℕ) := pow_le_pow_left hy0 hyu 5
        _ ≤ ((0.0904752:ℝ)) ^ (12:ℕ) := by norm_num
      rw [abs_le]
      constructor <;> (ring_nf; ring_nf at hlow hhigh hy1 h1; linarith)
    · rw [show 12.92 * (y/12.92) - y = 0 from by ring, abs_zero]
      norm_num

end Pycomar

namespace Pycomar

/-- Growth of `rgb_to_linear_rgb` over a step of `0.000997`: the slope is at
least `1/12.92` on the linear branch and at least `2.4 · 0.0345 / 1.055` on
the power branch, and the branch jump at `0.04045` is upward. -/
lemma rgb_to_linear_rgb_val_increment {x : ℝ} (h0 : 0 ≤ x) (h1 : x ≤ 1) :
    rgb_to_linear_rgb_val x + 3.2e-6 ≤ rgb_to_linear_rgb_val (x + 0.000997) := by
  unfold rgb_to_linear_rgb_val
  split_ifs with ha hb hb
  · -- both power branch
    have hb0 : (0:ℝ) < (x + 0.055) / 1.055 := by positivity
    have hab : (x + 0.055) / 1.055 ≤ (x + 0.000997 + 0.055) / 1.055 := by
      gcongr
      linarith
    have hB : (0.09545/1.055 : ℝ) ≤ (x + 0.055) / 1.055 := by
      gcongr
      linarith
    have h14 : (0.0345:ℝ) ≤ ((x + 0.055) / 1.055) ^ (1.4:ℝ) := by
      rw [show (1.4:ℝ) = ((7:ℕ):ℝ)/((5:ℕ):ℝ) from by norm_num]
      refine le_rpow_of_pow_le hb0.le (by norm_num) ?_
      calc ((0.0345:ℝ)) ^ (5:ℕ) ≤ ((0.09545/1.055:ℝ)) ^ (7:ℕ) := by norm_num
      _ ≤ ((x + 0.055) / 1.055) ^ (7:ℕ) := pow_le_pow_left (by norm_num) hB 7
    have hbern := rpow_24_increment hb0 hab
    have hd : (x + 0.000997 + 0.055) / 1.055 - (x + 0.055) / 1.055 = 0.000997/1.055 := by
      ring
    rw [hd] at hbern
    ring_nf at hbern h14 ⊢
    linarith
  · exfalso
    linarith
  · -- cross: linear at x, power at x + 0.000997
    push_neg at ha
    have ha0 : (0.09545/1.055 : ℝ) ≤ (x + 0.000997 + 0.055) / 1.055 := by
      gcongr
      linarith
    have hbern := rpow_24_increment (b := 0.09545/1.055) (by norm_num) ha0
    have h14 : (0.0345:ℝ) ≤ ((0.09545/1.055:ℝ)) ^ (1.4:ℝ) := by
      rw [show (1.4:ℝ) = ((7:ℕ):ℝ)/((5:ℕ):ℝ) from by norm_num]
      refine le_rpow_of_pow_le (by norm_num) (by norm_num) (by norm_num)
    have hq3 : (0.003130807:ℝ) ≤ ((0.09545/1.055:ℝ)) ^ (2.4:ℝ) := by
      rw [show (2.4:ℝ) = ((12:ℕ):ℝ)/((5:ℕ):ℝ) from by norm_num]
      refine le_rpow_of_pow_le (by norm_num) (by norm_num) (by norm_num)
    have hd : (x + 0.000997 + 0.055) / 1.055 - 0.09545/1.055 = (x - 0.039453)/1.055 := by
      ring
    rw [hd] at hbern
    have hx' : (0:ℝ) ≤ x - 0.039453 := by linarith
    have hprod : 0.0345 * ((x - 0.039453)/1.055) ≤
        ((0.09545/1.055:ℝ)) ^ (1.4:ℝ) * ((x - 0.039453)/1.055) :=
      mul_le_mul_of_nonneg_right h14 (by positivity)
    ring_nf at hbern hq3 hprod ⊢
    linarith
  · -- both linear branch
    ring_nf
    linarith

end Pycomar

namespace Pycomar

/-- Clamped recovery bound: if the linear value reaching `linear_rgb_to_rgb`
deviates from `rgb_to_linear_rgb x` by at most `3.2e-6`, the clamped sRGB
output is within `0.001` of `x`. -/
lemma gamma_sandwich {x d : ℝ} (h0 : 0 ≤ x) (h1 : x ≤ 1) (hd : |d| ≤ 3.2e-6) :
    |clamp01 (linear_rgb_to_rgb_val (rgb_to_linear_rgb_val x + d)) - x| ≤ 0.001 := by
  obtain ⟨hdl, hdu⟩ := abs_le.mp hd
  have hup : linear_rgb_to_rgb_val (rgb_to_linear_rgb_val x + d) ≤ x + 0.000997 + 2e-6 + 4e-8 := by
    have hstep := rgb_to_linear_rgb_val_increment h0 h1
    have hmono := linear_rgb_to_rgb_val_quasiMono
      (show rgb_to_linear_rgb_val x + d ≤ rgb_to_linear_rgb_val (x + 0.000997) from by linarith)
    have hinv := abs_le.mp (linear_rgb_to_rgb_val_inverts (y := x + 0.000997) (by linarith))
    linarith
  rw [abs_le]
  constructor
  · rcases le_or_lt x 0.001 with hx | hx
    · have hcl : 0 ≤ clamp01 (linear_rgb_to_rgb_val (rgb_to_linear_rgb_val x + d)) :=
        le_min (le_max_right _ 0) (by norm_num)
      linarith
    · have hstep := rgb_to_linear_rgb_val_increment (x := x - 0.000997)
        (by linarith) (by linarith)
      rw [show x - 0.000997 + 0.000997 = x from by ring] at hstep
      have hmono := linear_rgb_to_rgb_val_quasiMono
        (show rgb_to_linear_rgb_val (x - 0.000997) ≤ rgb_to_linear_rgb_val x + d from by linarith)
      have hinv := abs_le.mp (linear_rgb_to_rgb_val_inverts (y := x - 0.000997) (by linarith))
      have hr : x - 0.000997 - 2e-6 - 4e-8 ≤ linear_rgb_to_rgb_val (rgb_to_linear_rgb_val x + d) := by
        linarith
      have h1' : x - 0.001 ≤ max (linear_rgb_to_rgb_val (rgb_to_linear_rgb_val x + d)) 0 :=
        le_trans (by linarith) (le_max_left _ 0)
      have h2' : x - 0.001 ≤ clamp01 (linear_rgb_to_rgb_val (rgb_to_linear_rgb_val x + d)) := by
        unfold clamp01
        exact le_min h1' (by linarith)
      linarith
  · rcases le_or_lt (linear_rgb_to_rgb_val (rgb_to_linear_rgb_val x + d)) 0 with hr0 | hr0
    · have hcl : clamp01 (linear_rgb_to_rgb_val (rgb_to_linear_rgb_val x + d)) ≤ 0 := by
        unfold clamp01
        rw [max_eq_right hr0]
        norm_num
      linarith
    · have hcl : clamp01 (linear_rgb_to_rgb_val (rgb_to_linear_rgb_val x + d)) ≤
          linear_rgb_to_rgb_val (rgb_to_linear_rgb_val x + d) := by
        unfold clamp01
        rw [max_eq_left hr0.le]
        exact min_le_left _ _
      linarith

/-- Per-channel assembly: a linear value within `3.2e-6` of
`rgb_to_linear_rgb x` recovers `x` within `0.001` after `linear_rgb_to_rgb`
and clamping. -/
lemma channel_bound {x w : ℝ} (h0 : 0 ≤ x) (h1 : x ≤ 1)
    (hw : |w - rgb_to_linear_rgb_val x| ≤ 3.2e-6) :
    |clamp01 (linear_rgb_to_rgb_val w) - x| ≤ 0.001 := by
  have := gamma_sandwich (d := w - rgb_to_linear_rgb_val x) h0 h1 hw
  rwa [show rgb_to_linear_rgb_val x + (w - rgb_to_linear_rgb_val x) = w from by ring] at this

end Pycomar

namespace Pycomar

/-- `lab2rgb` applied to an exact Lab triple `(116 fy - 16, 500 (fx - fy),
200 (fy - fz))` recovers `fx, fy, fz` exactly and proceeds with the inverse
nonlinearity, the white point, the XYZ→RGB matrix and the gamma curve. -/
lemma lab2rgb_pixel_lab (fx fy fz : ℝ) (hfz : 0 ≤ fz) :
    lab2rgb_pixel (116.0 * fy - 16.0, 500.0 * (fx - fy), 200.0 * (fy - fz)) true =
      (clamp01 (linear_rgb_to_rgb_val
        (3.2404813432005266 * (labFinv fx * 0.95047) +
          -1.5371515162713185 * (labFinv fy * 1.0) +
          -0.4985363261688878 * (labFinv fz * 1.08883))),
       clamp01 (linear_rgb_to_rgb_val
        (-0.9692549499965682 * (labFinv fx * 0.95047) +
          1.8759900014898907 * (labFinv fy * 1.0) +
          0.0415559265582928 * (labFinv fz * 1.08883))),
       clamp01 (linear_rgb_to_rgb_val
        (0.0556466391351772 * (labFinv fx * 0.95047) +
          -0.2040413383665112 * (labFinv fy * 1.0) +
          1.0573110696453443 * (labFinv fz * 1.08883)))) := by
  unfold lab2rgb_pixel xyz_to_rgb_pixel
  dsimp only
  rw [show (116.0 * fy - 16.0 + 16.0) / 116.0 = fy from by ring]
  rw [show 500.0 * (fx - fy) / 500.0 + fy = fx from by ring]
  rw [show fy - 200.0 * (fy - fz) / 200.0 = fz from by ring]
  rw [max_eq_left hfz]
  rfl

end Pycomar

namespace Pycomar

set_option maxHeartbeats 1000000 in
/-- The Lab round trip recovers each channel within `0.001`. -/
lemma lab_roundtrip_pixel {r g b : ℝ}
    (hr0 : 0 ≤ r) (hr1 : r ≤ 1) (hg0 : 0 ≤ g) (hg1 : g ≤ 1)
    (hb0 : 0 ≤ b) (hb1 : b ≤ 1) :
    |(lab2rgb_pixel (rgb2lab_pixel (r, g, b)) true).1 - r| ≤ 0.001 ∧
    |(lab2rgb_pixel (rgb2lab_pixel (r, g, b)) true).2.1 - g| ≤ 0.001 ∧
    |(lab2rgb_pixel (rgb2lab_pixel (r, g, b)) true).2.2 - b| ≤ 0.001 := by
  obtain ⟨hl10, hl11⟩ := rgb_to_linear_rgb_val_mem hr0 hr1
  obtain ⟨hl20, hl21⟩ := rgb_to_linear_rgb_val_mem hg0 hg1
  obtain ⟨hl30, hl31⟩ := rgb_to_linear_rgb_val_mem hb0 hb1
  set l1 := rgb_to_linear_rgb_val r with hl1d
  set l2 := rgb_to_linear_rgb_val g with hl2d
  set l3 := rgb_to_linear_rgb_val b with hl3d
  have hX : (0:ℝ) ≤ 0.412453 * l1 + 0.357580 * l2 + 0.180423 * l3 := by nlinarith
  have hY : (0:ℝ) ≤ 0.212671 * l1 + 0.715160 * l2 + 0.072169 * l3 := by nlinarith
  have hZ : (0:ℝ) ≤ 0.019334 * l1 + 0.119193 * l2 + 0.950227 * l3 := by nlinarith
  have ht1 : (0:ℝ) ≤ (0.412453 * l1 + 0.357580 * l2 + 0.180423 * l3) / 0.95047 :=
    div_nonneg hX (by norm_num)
  have ht2 : (0:ℝ) ≤ (0.212671 * l1 + 0.715160 * l2 + 0.072169 * l3) / 1.0 :=
    div_nonneg hY (by norm_num)
  have ht3 : (0:ℝ) ≤ (0.019334 * l1 + 0.119193 * l2 + 0.950227 * l3) / 1.08883 :=
    div_nonneg hZ (by norm_num)
  have hfz : (0:ℝ) ≤ labF ((0.019334 * l1 + 0.119193 * l2 + 0.950227 * l3) / 1.08883) :=
    (labF_pos ht3).le
  have hform : rgb2lab_pixel (r, g, b) =
      (116.0 * labF ((0.212671 * l1 + 0.715160 * l2 + 0.072169 * l3) / 1.0) - 16.0,
       500.0 * (labF ((0.412453 * l1 + 0.357580 * l2 + 0.180423 * l3) / 0.95047) -
         labF ((0.212671 * l1 + 0.715160 * l2 + 0.072169 * l3) / 1.0)),
       200.0 * (labF ((0.212671 * l1 + 0.715160 * l2 + 0.072169 * l3) / 1.0) -
         labF ((0.019334 * l1 + 0.119193 * l2 + 0.950227 * l3) / 1.08883))) := rfl
  rw [hform, lab2rgb_pixel_lab _ _ _ hfz]
  have he1 := abs_le.mp (labFinv_labF ht1)
  have he2 := abs_le.mp (labFinv_labF ht2)
  have he3 := abs_le.mp (labFinv_labF ht3)
  set A1 := labFinv (labF ((0.412453 * l1 + 0.357580 * l2 + 0.180423 * l3) / 0.95047))
    with hA1d
  set A2 := labFinv (labF ((0.212671 * l1 + 0.715160 * l2 + 0.072169 * l3) / 1.0))
    with hA2d
  set A3 := labFinv (labF ((0.019334 * l1 + 0.119193 * l2 + 0.950227 * l3) / 1.08883))
    with hA3d
  obtain ⟨hea, heb⟩ := he1
  obtain ⟨hec, hed⟩ := he2
  obtain ⟨hee, hef⟩ := he3
  refine ⟨channel_bound hr0 hr1 ?_, channel_bound hg0 hg1 ?_, channel_bound hb0 hb1 ?_⟩ <;>
    · rw [abs_le]
      constructor <;>
        (ring_nf
         ring_nf at hea heb hec hed hee hef hl10 hl11 hl20 hl21 hl30 hl31
         linarith)

end Pycomar

namespace Pycomar

/-- Claim C2. -/
theorem lab_roundtrip {ι : Type} (img : ι → RPixel) (i : ι)
    (hr0 : 0 ≤ (img i).1) (hr1 : (img i).1 ≤ 1)
    (hg0 : 0 ≤ (img i).2.1) (hg1 : (img i).2.1 ≤ 1)
    (hb0 : 0 ≤ (img i).2.2) (hb1 : (img i).2.2 ≤ 1) :
    |(lab2rgb (rgb2lab img) true i).1 - (img i).1| ≤ 0.001 ∧
    |(lab2rgb (rgb2lab img) true i).2.1 - (img i).2.1| ≤ 0.001 ∧
    |(lab2rgb (rgb2lab img) true i).2.2 - (img i).2.2| ≤ 0.001 :=
  lab_roundtrip_pixel hr0 hr1 hg0 hg1 hb0 hb1

theorem lab_roundtrip_witness :
    |(lab2rgb (rgb2lab (fun _ : Unit => ((1/2, 1/4, 3/4) : RPixel))) true ()).1 -
      ((fun _ : Unit => ((1/2, 1/4, 3/4) : RPixel)) ()).1| ≤ 0.001 ∧
    |(lab2rgb (rgb2lab (fun _ : Unit => ((1/2, 1/4, 3/4) : RPixel))) true ()).2.1 -
      ((fun _ : Unit => ((1/2, 1/4, 3/4) : RPixel)) ()).2.1| ≤ 0.001 ∧
    |(lab2rgb (rgb2lab (fun _ : Unit => ((1/2, 1/4, 3/4) : RPixel))) true ()).2.2 -
      ((fun _ : Unit => ((1/2, 1/4, 3/4) : RPixel)) ()).2.2| ≤ 0.001 :=
  lab_roundtrip (fun _ : Unit => ((1/2, 1/4, 3/4) : RPixel)) ()
    (by norm_num) (by norm_num) (by norm_num) (by norm_num) (by norm_num) (by norm_num)

end Pycomar
